import Mathlib

/-!
Shallow embedding of the logging facade in
`src/source/scpp/src/util/Logging.h` and proofs about it.

The header defines severity macros, the `stellar::Logging` convenience
predicates `logDebug`/`logTrace` (whose bodies are in the header), and the
`stellar::DLogger` message accumulator.  `DLogger::operator<<` is defined in
the header; the constructor and destructor of `DLogger`, as well as the
external functions `agora::getLogLevel` and `agora::writeDLog`, are only
declared there, so their behaviour is modelled from the specification where
needed (each such definition says so in its doc comment).

External calls made by the logging code are recorded in an explicit event
trace: a query of the level-configuration store (`agora::getLogLevel`) or a
write to the sink (`agora::writeDLog`).
-/

/-- Severity macro `TRACE` from the source header (value `0`). -/
def TRACE : Int := 0

/-- Severity macro `DEBUG` from the source header (value `0`, the same as
`TRACE`). -/
def DEBUG : Int := 0

/-- Severity macro `INFO` from the source header (value `1`). -/
def INFO : Int := 1

/-- Severity macro `WARN` from the source header (value `2`). -/
def WARN : Int := 2

/-- Severity macro `ERROR` from the source header (value `3`). -/
def ERROR : Int := 3

/-- Severity macro `FATAL` from the source header (value `4`). -/
def FATAL : Int := 4

/-- Modelled from the spec: the external level-configuration store behind
`agora::getLogLevel` (declared in the header, defined elsewhere).  A
configuration maps a partition name to its current minimum level. -/
abbrev Config : Type := String → Int

/-- A call to the external sink `agora::writeDLog` with its three arguments:
the partition (logger) name, the level, and the message text. -/
structure SinkCall where
  logger : String
  level : Int
  msg : String
deriving DecidableEq

/-- An externally visible call made by the logging code: a query of the
level-configuration store (`agora::getLogLevel`) or a write to the sink
(`agora::writeDLog`). -/
inductive LogEvent where
  | gateQuery : String → LogEvent
  | sinkWrite : SinkCall → LogEvent
deriving DecidableEq

/-- The sink writes occurring in a trace, in order. -/
def sinkWrites (es : List LogEvent) : List SinkCall :=
  es.filterMap fun e =>
    match e with
    | LogEvent.sinkWrite c => some c
    | LogEvent.gateQuery _ => none

/-- The gate queries occurring in a trace, in order. -/
def gateQueries (es : List LogEvent) : List String :=
  es.filterMap fun e =>
    match e with
    | LogEvent.gateQuery p => some p
    | LogEvent.sinkWrite _ => none

namespace stellar

/-- From the source: `Logging::logDebug(partition)` returns
`agora::getLogLevel(partition.c_str()) <= DEBUG`.  The external store is a
parameter; the result is a pure function of it and of the partition. -/
def logDebug (getLogLevel : Config) (partition : String) : Bool :=
  decide (getLogLevel partition ≤ DEBUG)

/-- From the source: `Logging::logTrace(partition)` returns
`agora::getLogLevel(partition.c_str()) <= TRACE`. -/
def logTrace (getLogLevel : Config) (partition : String) : Bool :=
  decide (getLogLevel partition ≤ TRACE)

/-- Modelled from the spec: the general gate predicate
`LevelGate.isEnabled(partition, severity)` described in the spec has no body
under `src/`; per the spec it returns true iff
`severity >= currentMinimumLevel(partition)`, which matches the header's
`getLogLevel(partition) <= LEVEL` pattern. -/
def isEnabled (getLogLevel : Config) (partition : String) (severity : Int) : Bool :=
  decide (getLogLevel partition ≤ severity)

/-- State of a `stellar::DLogger` accumulator: the stored partition name
(`mLoggerName`), the stored level (`mLevel`), and the accumulated output text
(`mOutStream`, modelled as the string written to it so far). -/
structure DLogger where
  mLoggerName : String
  mLevel : Int
  mOutStream : String
deriving DecidableEq

/-- From the source: `DLogger::operator<<` writes the fragment's textual
representation to `mOutStream` and returns `*this`; its body makes no external
call.  Fragments are modelled by their rendered text. -/
def DLogger.append (d : DLogger) (value : String) : DLogger :=
  { d with mOutStream := d.mOutStream ++ value }

/-- The event-trace form of `DLogger.append`: the body of `operator<<` in the
header performs no external call, so the trace is empty. -/
def DLogger.appendOp (d : DLogger) (value : String) : DLogger × List LogEvent :=
  (d.append value, [])

/-- Modelled from the spec: `DLogger`'s constructor is declared in the header
but defined elsewhere; per the spec an accumulator is constructed for a given
(severity, partition) with an empty body and performs no gate query and no
sink call at construction time.  The configuration current at construction is
a parameter only to record that the constructor does not consult it. -/
def DLogger.construct (_cfgAtCtor : Config) (level : Int) (loggerName : String) :
    DLogger × List LogEvent :=
  (⟨loggerName, level, ""⟩, [])

/-- Modelled from the spec: `DLogger`'s destructor is declared in the header
but defined elsewhere; per the spec, at finalization the accumulator queries
the gate once for its partition and, exactly when enabled at its stored level,
hands (partition, level, accumulated text) to the sink via
`agora::writeDLog`; otherwise the text is discarded. -/
def DLogger.finalizeOp (getLogLevel : Config) (d : DLogger) : List LogEvent :=
  LogEvent.gateQuery d.mLoggerName ::
    (if isEnabled getLogLevel d.mLoggerName d.mLevel then
      [LogEvent.sinkWrite ⟨d.mLoggerName, d.mLevel, d.mOutStream⟩]
     else [])

/-- Append a list of fragments in call order, collecting external events. -/
def appendAll (d : DLogger) (frags : List String) : DLogger × List LogEvent :=
  frags.foldl
    (fun acc v =>
      let step := DLogger.appendOp acc.1 v
      (step.1, acc.2 ++ step.2))
    (d, [])

/-- Concatenation of the rendered fragments in append order, with no
separators. -/
def concatFrags (frags : List String) : String :=
  frags.foldl (fun acc v => acc ++ v) ""

/-- One full log statement with possibly different configurations at
construction time and at scope exit: construct, append every fragment in
order, then finalize under the exit-time configuration.  The result is the
trace of external calls, in order. -/
def runWithReconfig (cfgAtCtor cfgAtExit : Config) (level : Int) (partition : String)
    (frags : List String) : List LogEvent :=
  let c := DLogger.construct cfgAtCtor level partition
  let a := appendAll c.1 frags
  c.2 ++ a.2 ++ DLogger.finalizeOp cfgAtExit a.1

/-- One full log statement under a single, unchanging configuration. -/
def runLogStatement (cfg : Config) (level : Int) (partition : String)
    (frags : List String) : List LogEvent :=
  runWithReconfig cfg cfg level partition frags

theorem foldl_string_append (l : List String) :
    ∀ s : String, l.foldl (fun acc v => acc ++ v) s = s ++ concatFrags l := by
  induction l with
  | nil =>
    intro s
    simp [concatFrags]
  | cons v rest ih =>
    intro s
    have h1 := ih (s ++ v)
    have h2 := ih (("" : String) ++ v)
    simp only [List.foldl_cons, concatFrags] at *
    rw [h1, h2]
    simp [String.append_assoc]

theorem concatFrags_cons (v : String) (rest : List String) :
    concatFrags (v :: rest) = v ++ concatFrags rest := by
  simp only [concatFrags, List.foldl_cons]
  rw [foldl_string_append]
  simp [concatFrags]

theorem appendAll_cons (d : DLogger) (v : String) (rest : List String) :
    appendAll d (v :: rest) = appendAll (d.append v) rest := rfl

theorem appendAll_eq (frags : List String) :
    ∀ d : DLogger,
      appendAll d frags = (⟨d.mLoggerName, d.mLevel, d.mOutStream ++ concatFrags frags⟩, []) := by
  induction frags with
  | nil =>
    intro d
    simp [appendAll, concatFrags]
  | cons v rest ih =>
    intro d
    rw [appendAll_cons, ih (d.append v)]
    simp [DLogger.append, concatFrags_cons, String.append_assoc]

theorem runWithReconfig_eq (c1 c2 : Config) (level : Int) (P : String)
    (frags : List String) :
    runWithReconfig c1 c2 level P frags =
      LogEvent.gateQuery P ::
        (if isEnabled c2 P level then
          [LogEvent.sinkWrite ⟨P, level, concatFrags frags⟩]
         else []) := by
  simp [runWithReconfig, DLogger.construct, appendAll_eq frags, DLogger.finalizeOp]

theorem sinkWrites_run (c1 c2 : Config) (level : Int) (P : String)
    (frags : List String) :
    sinkWrites (runWithReconfig c1 c2 level P frags) =
      (if isEnabled c2 P level then [⟨P, level, concatFrags frags⟩] else []) := by
  rw [runWithReconfig_eq]
  by_cases h : isEnabled c2 P level <;> simp [h, sinkWrites]

theorem gateQueries_run (c1 c2 : Config) (level : Int) (P : String)
    (frags : List String) :
    gateQueries (runWithReconfig c1 c2 level P frags) = [P] := by
  rw [runWithReconfig_eq]
  by_cases h : isEnabled c2 P level <;> simp [h, gateQueries]

end stellar

namespace stellar

/-- C1: for a partition `P` whose configured minimum is `S2`, a statement at a
severity below `S2` produces no sink write, a statement at severity `S2` or
higher produces exactly one sink write, and in either case the gate is
queried exactly once, regardless of the appended fragments. -/
theorem C1_filtering_exactly_once (cfg : Config) (P : String) (S1 S2 : Int)
    (frags : List String) (hcfg : cfg P = S2) :
    (S1 < S2 → sinkWrites (runLogStatement cfg S1 P frags) = []) ∧
    (S2 ≤ S1 → (sinkWrites (runLogStatement cfg S1 P frags)).length = 1) ∧
    (gateQueries (runLogStatement cfg S1 P frags)).length = 1 := by
  unfold runLogStatement
  rw [sinkWrites_run, gateQueries_run]
  refine ⟨?_, ?_, rfl⟩
  · intro hlt
    have : ¬ (cfg P ≤ S1) := by rw [hcfg]; exact not_le.mpr hlt
    simp [isEnabled, this]
  · intro hge
    have : cfg P ≤ S1 := by rw [hcfg]; exact hge
    simp [isEnabled, this]

theorem C1_filtering_exactly_once_witness :
    sinkWrites (runLogStatement (fun _ => (2 : Int)) 1 "net" ["a", "b"]) = [] ∧
    (sinkWrites (runLogStatement (fun _ => (2 : Int)) 3 "net" ["a", "b"])).length = 1 ∧
    (gateQueries (runLogStatement (fun _ => (2 : Int)) 3 "net" ["a", "b"])).length = 1 :=
  ⟨(C1_filtering_exactly_once (fun _ => (2 : Int)) "net" 1 2 ["a", "b"] rfl).1 (by decide),
   (C1_filtering_exactly_once (fun _ => (2 : Int)) "net" 3 2 ["a", "b"] rfl).2.1 (by decide),
   (C1_filtering_exactly_once (fun _ => (2 : Int)) "net" 3 2 ["a", "b"] rfl).2.2⟩

/-- C2, counterexample: the claim assigns DEBUG=1, INFO=2, WARN=3, ERROR=4,
FATAL=5, but in the source DEBUG is 0 (sharing its value with TRACE) and the
remaining macros are 1..4, so the claimed assignment is false. -/
theorem C2_counterexample :
    ¬ (TRACE = 0 ∧ DEBUG = 1 ∧ INFO = 2 ∧ WARN = 3 ∧ ERROR = 4 ∧ FATAL = 5) := by
  decide

/-- C2, amended: the severity macros in the source are TRACE=0, DEBUG=0,
INFO=1, WARN=2, ERROR=3, FATAL=4: six names but only five distinct values,
TRACE and DEBUG share the value 0, and the ordering
TRACE = DEBUG < INFO < WARN < ERROR < FATAL holds. -/
theorem C2_severity_values :
    TRACE = 0 ∧ DEBUG = 0 ∧ INFO = 1 ∧ WARN = 2 ∧ ERROR = 3 ∧ FATAL = 4 ∧
    TRACE = DEBUG ∧ DEBUG < INFO ∧ INFO < WARN ∧ WARN < ERROR ∧ ERROR < FATAL := by
  decide

/-- C3: `logDebug cfg P` is true iff the configured level of `P` is at most
DEBUG and `logTrace cfg P` iff at most TRACE; both are pure functions of the
configuration and the partition, and each equals the general gate predicate
at DEBUG respectively TRACE. -/
theorem C3_convenience_predicates (cfg : Config) (P : String) :
    (logDebug cfg P = true ↔ cfg P ≤ DEBUG) ∧
    (logTrace cfg P = true ↔ cfg P ≤ TRACE) ∧
    logDebug cfg P = isEnabled cfg P DEBUG ∧
    logTrace cfg P = isEnabled cfg P TRACE := by
  simp [logDebug, logTrace, isEnabled]

/-- C4: the finalized message text is the concatenation of the rendered
fragments in append order with no separators: the accumulated buffer equals
`concatFrags frags`, and whenever the message is delivered the sink receives
exactly that text (and nothing is delivered otherwise). -/
theorem C4_concatenation (cfg : Config) (level : Int) (P : String)
    (frags : List String) :
    (appendAll ⟨P, level, ""⟩ frags).1.mOutStream = concatFrags frags ∧
    sinkWrites (runLogStatement cfg level P frags) =
      (if isEnabled cfg P level then [⟨P, level, concatFrags frags⟩] else []) := by
  constructor
  · rw [appendAll_eq]
    simp
  · exact sinkWrites_run cfg cfg level P frags

/-- C5: the emit decision is taken at finalization, not at construction: the
whole trace of a statement is independent of the configuration current at
construction, and emission is governed exactly by the configuration at scope
exit. -/
theorem C5_decision_at_finalization (c1 c1' c2 : Config) (level : Int)
    (P : String) (frags : List String) :
    runWithReconfig c1 c2 level P frags = runWithReconfig c1' c2 level P frags ∧
    sinkWrites (runWithReconfig c1 c2 level P frags) =
      (if isEnabled c2 P level then [⟨P, level, concatFrags frags⟩] else []) := by
  constructor
  · rw [runWithReconfig_eq, runWithReconfig_eq]
  · exact sinkWrites_run c1 c2 level P frags

/-- C6: an accumulator constructed at an enabled (severity, partition) on
which zero fragments are appended delivers exactly one message with empty
body at finalization. -/
theorem C6_empty_message (cfg : Config) (level : Int) (P : String)
    (h : isEnabled cfg P level = true) :
    sinkWrites (runLogStatement cfg level P []) = [⟨P, level, ""⟩] := by
  unfold runLogStatement
  rw [sinkWrites_run, h]
  simp [concatFrags]

theorem C6_empty_message_witness :
    sinkWrites (runLogStatement (fun _ => (0 : Int)) 1 "net" []) = [⟨"net", 1, ""⟩] :=
  C6_empty_message (fun _ => (0 : Int)) 1 "net" (by decide)

/-- C7: an append modifies only the accumulated text: it preserves the stored
partition name and level, extends the buffer by exactly the fragment, makes
no gate query and no sink write, and its result is the updated accumulator
itself, so appends chain. -/
theorem C7_append_frame (d : DLogger) (v : String) :
    (d.appendOp v).1.mLoggerName = d.mLoggerName ∧
    (d.appendOp v).1.mLevel = d.mLevel ∧
    (d.appendOp v).1.mOutStream = d.mOutStream ++ v ∧
    (d.appendOp v).2 = [] ∧
    (d.appendOp v).1 = d.append v := by
  simp [DLogger.appendOp, DLogger.append]

/-- C8: `logDebug` and `logTrace` are extensionally equal predicates, because
the DEBUG and TRACE threshold macros are both 0 in the source. -/
theorem C8_logDebug_eq_logTrace (cfg : Config) (P : String) :
    logDebug cfg P = logTrace cfg P := by
  simp [logDebug, logTrace, DEBUG, TRACE]

/-- C9: append is a homomorphism from fragment sequences to text: appending
`a` then `b` equals appending the single fragment `a ++ b`, and appending the
empty fragment is the identity on the accumulator. -/
theorem C9_append_homomorphism (d : DLogger) (a b : String) :
    (d.append a).append b = d.append (a ++ b) ∧ d.append "" = d := by
  constructor
  · simp [DLogger.append, String.append_assoc]
  · simp [DLogger.append]

/-- C10: the convenience predicates are deterministic and depend only on the
partition string and that partition's configured level: two calls under any
two configurations that agree on the (equal) partition return the same
boolean. -/
theorem C10_noninterference (cfg1 cfg2 : Config) (P1 P2 : String)
    (hP : P1 = P2) (hL : cfg1 P1 = cfg2 P2) :
    logDebug cfg1 P1 = logDebug cfg2 P2 ∧ logTrace cfg1 P1 = logTrace cfg2 P2 := by
  subst hP
  simp [logDebug, logTrace, hL]

theorem C10_noninterference_witness :
    logDebug (fun _ => (1 : Int)) "net" =
      logDebug (fun p => if p = "net" then (1 : Int) else 5) "net" ∧
    logTrace (fun _ => (1 : Int)) "net" =
      logTrace (fun p => if p = "net" then (1 : Int) else 5) "net" :=
  C10_noninterference (fun _ => (1 : Int)) (fun p => if p = "net" then (1 : Int) else 5)
    "net" "net" rfl (by decide)

end stellar
